import Mathlib

/-!
Verification of `gen_msix_xml.py`, a one-shot build script that turns a JSON
application manifest plus logo assets into an `AppxManifest.xml` package
manifest and an optional `.appinstaller` update descriptor.

The script is embedded shallowly:

* the JSON document is an inductive `Json` with ordered-field objects
  (Python `dict` lookups become `Json.get?`; a missing key, which raises
  `KeyError` in Python, becomes `Option.none` / an `Except.error`);
* the PowerShell certificate query of `get_cert_subject` (lines 65-107) is
  embedded by modelling the certificate store as a list of `StoreCert` and
  translating the PowerShell pipeline (`Where-Object` validity filter,
  `sort NotAfter`, index `[-1]`) into `filter_valid_certs`,
  `sortByNotAfter` and `List.getLast?`;
* `xml.etree.ElementTree` trees become the inductive `XmlNode`; the
  library's serializer (`ET.indent` + `ElementTree.write`) is external
  library code and is treated as an abstract parameter
  `ser : XmlNode → List Nat` producing the file's bytes;
* file bytes are `List Nat` (10 = `\n`, 32 = space);
* each Python `assert`/`KeyError` abort becomes `Except.error`, and the
  module-level statements of lines 269-341 become `run`, which returns the
  list of XML files written (name, bytes) together with `none` on success
  or `some msg` when the script aborted after performing exactly those
  writes.

JSON leaf values are modelled at the types the manifest schema prescribes
(strings, booleans, the integer update interval); Python's dynamic typing
would let a wrong-typed value flow further before failing, but every claim
below concerns either well-typed runs or missing keys, where the two
semantics agree.
-/

/-- JSON documents, as loaded by `json.load` (line 60).  Objects keep their
fields in order; `get?` is Python `d[k]` returning `none` where Python
raises `KeyError` (or `TypeError` on a non-object). -/
inductive Json where
  | null
  | str (s : String)
  | num (n : Int)
  | bool (b : Bool)
  | obj (fields : List (String × Json))
  | arr (elems : List Json)

/-- Field lookup in a JSON object: Python `manifest[k]`. -/
def Json.get? : Json → String → Option Json
  | .obj fields, k => fields.lookup k
  | _, _ => none

/-- String leaf extraction. -/
def Json.asStr : Json → Option String
  | .str s => some s
  | _ => none

/-- Boolean leaf extraction. -/
def Json.asBool : Json → Option Bool
  | .bool b => some b
  | _ => none

/-- Integer leaf extraction. -/
def Json.asInt : Json → Option Int
  | .num n => some n
  | _ => none

/-- `j[k]` where the value is consumed as a JSON object/value:
`KeyError` becomes `Except.error`. -/
def jGet (j : Json) (k : String) : Except String Json :=
  match j.get? k with
  | some v => .ok v
  | none => .error ("KeyError: " ++ k)

/-- `j[k]` consumed as a string. -/
def jStr (j : Json) (k : String) : Except String String :=
  match j.get? k with
  | some v =>
    match v.asStr with
    | some s => .ok s
    | none => .error ("TypeError: " ++ k)
  | none => .error ("KeyError: " ++ k)

/-- `j[k]` consumed as a boolean. -/
def jBool (j : Json) (k : String) : Except String Bool :=
  match j.get? k with
  | some v =>
    match v.asBool with
    | some b => .ok b
    | none => .error ("TypeError: " ++ k)
  | none => .error ("KeyError: " ++ k)

/-- `j[k]` consumed as an integer. -/
def jInt (j : Json) (k : String) : Except String Int :=
  match j.get? k with
  | some v =>
    match v.asInt with
    | some n => .ok n
    | none => .error ("TypeError: " ++ k)
  | none => .error ("KeyError: " ++ k)

/-! ## Certificate store and `get_cert_subject` (lines 65-107) -/

/-- One code-signing certificate of the store reachable from the queried
certificate path, with its validity window (`NotBefore`/`NotAfter`,
timestamps as integers) and the three properties the PowerShell snippet
prints. -/
structure StoreCert where
  friendlyName : String
  thumbprint : String
  subject : String
  notBefore : Int
  notAfter : Int
deriving DecidableEq

/-- PowerShell line 81: `Where-Object { $_.NotBefore -lt (Get-Date) -and
$_.NotAfter -gt (Get-Date) }`. -/
def filter_valid_certs (now : Int) (certs : List StoreCert) : List StoreCert :=
  certs.filter (fun c => decide (c.notBefore < now) && decide (c.notAfter > now))

/-- Insertion step of the stable ascending sort on `NotAfter`. -/
def insertCert (c : StoreCert) : List StoreCert → List StoreCert
  | [] => [c]
  | d :: ds => if c.notAfter ≤ d.notAfter then c :: d :: ds else d :: insertCert c ds

/-- PowerShell line 82, `sort NotAfter`: ascending sort on the expiration
timestamp. -/
def sortByNotAfter : List StoreCert → List StoreCert
  | [] => []
  | c :: cs => insertCert c (sortByNotAfter cs)

/-- PowerShell line 82: `($filter_valid_certs | sort NotAfter)[-1]`, the
last element of the ascending sort, i.e. a latest-expiring valid
certificate (`none` when no certificate passed the filter). -/
def selectStoreCert (now : Int) (certs : List StoreCert) : Option StoreCert :=
  (sortByNotAfter (filter_valid_certs now certs)).getLast?

/-- The decoded stdout lines of the PowerShell query (lines 83-85 print
`$cert.FriendlyName`, `$cert.Thumbprint`, `$cert.Subject`; when the
pipeline selected nothing, `$null` member accesses print no lines). -/
def pwshCertQuery (now : Int) (certs : List StoreCert) : List String :=
  match selectStoreCert now certs with
  | some c => [c.friendlyName, c.thumbprint, c.subject]
  | none => []

/-- Lines 103-107: `splitlines`-decoded output is asserted to be exactly
three lines (`assert len(pwsh_cert_output) == 3`), unpacked as
`cert_name, cert_thumbprint, cert_subject`, and the subject is returned.
The Python `f"Unexpected output from Powershell: {pwsh_cert_output}"`
message interpolates the list repr; we join the lines instead, which is
immaterial to every property below. -/
def parseCertOutput (lines : List String) : Except String String :=
  match lines with
  | [_cert_name, _cert_thumbprint, cert_subject] => .ok cert_subject
  | _ => .error ("Unexpected output from Powershell: " ++ String.intercalate "\n" lines)

/-- `get_cert_subject` (lines 65-107).  A truthy `--cert-subject` argument
(line 68: `None` and the empty string are falsy) is returned unchanged;
otherwise the store reachable from the (possibly `--cert-path`-overridden)
location is queried and the query output parsed.  The store contents at
that location are the `certs` parameter. -/
def get_cert_subject (cert_subject : Option String) (now : Int)
    (certs : List StoreCert) : Except String String :=
  if cert_subject.getD "" ≠ "" then .ok (cert_subject.getD "")
  else parseCertOutput (pwshCertQuery now certs)

/-! ## Dataclasses (lines 110-146) -/

/-- Dataclass `AppLogo` (lines 110-114). -/
structure AppLogo where
  logo_sq_44x44 : String
  logo_sq_150x150 : String
  bg_color : String
deriving DecidableEq

/-- Dataclass `CodeSigningCert` (lines 117-119). -/
structure CodeSigningCert where
  publisher : String
deriving DecidableEq

/-- Dataclass `MsixApplication` (lines 122-134). -/
structure MsixApplication where
  name : String
  displayed_name : String
  description : String
  version : String
  cert : CodeSigningCert
  arch : String
  logo : AppLogo
  entrypoint : String
  displayed_publisher : String
  min_windows_version : String
  max_windows_version_tested : String
deriving DecidableEq

/-- Dataclass `MsixInstaller` (lines 137-146). -/
structure MsixInstaller where
  version : String
  installer_uri : String
  appx_uri : String
  hours_between_update_checks : Int
  show_prompt : Bool
  update_blocks_activation : Bool
  automatic_background_task : Bool
  force_update_from_any_version : Bool
deriving DecidableEq

/-! ## String splitting (Python `str.split` with a one-character
separator, and the URI-path helpers of line 315) -/

/-- Python `str.split(sep)` for a single-character separator, on the
character list of the string: splits at every occurrence, keeping empty
segments, and yields `[whole]` when the separator does not occur. -/
def pySplit (sep : Char) : List Char → List (List Char)
  | [] => [[]]
  | c :: cs =>
    if c = sep then [] :: pySplit sep cs
    else
      match pySplit sep cs with
      | [] => [[c]]
      | seg :: segs => (c :: seg) :: segs

/-- `name.split(".")[-1]` (line 220): the final dot-separated segment. -/
def lastDotSegment (s : String) : String :=
  String.mk ((pySplit '.' s.toList).getLastD [])

/-! ## XML trees (`xml.etree.ElementTree` usage) -/

/-- An element tree node: tag, attributes in insertion order (`.set`),
optional text, and child elements in `SubElement` order. -/
inductive XmlNode where
  | elem (tag : String) (attrs : List (String × String)) (text : Option String)
      (children : List XmlNode)

def XmlNode.tag : XmlNode → String
  | .elem t _ _ _ => t

def XmlNode.attrs : XmlNode → List (String × String)
  | .elem _ a _ _ => a

def XmlNode.text : XmlNode → Option String
  | .elem _ _ tx _ => tx

def XmlNode.children : XmlNode → List XmlNode
  | .elem _ _ _ cs => cs

/-- First child element with the given tag. -/
def XmlNode.findChild (n : XmlNode) (t : String) : Option XmlNode :=
  n.children.find? (fun c => c.tag == t)

/-- Attribute lookup. -/
def XmlNode.getAttr (n : XmlNode) (k : String) : Option String :=
  n.attrs.lookup k

/-- All children with the given tag, in document order. -/
def XmlNode.childrenWithTag (n : XmlNode) (t : String) : List XmlNode :=
  n.children.filter (fun c => c.tag == t)

/-! ## `gen_appx_manifest` (lines 173-237) -/

/-- The `AppxManifest` document tree built by `gen_appx_manifest`. -/
def gen_appx_manifest (app_spec : MsixApplication) : XmlNode :=
  .elem "Package"
    [("xmlns", "http://schemas.microsoft.com/appx/manifest/foundation/windows10"),
     ("xmlns:uap", "http://schemas.microsoft.com/appx/manifest/uap/windows10"),
     ("xmlns:uap10", "http://schemas.microsoft.com/appx/manifest/uap/windows10/10"),
     ("xmlns:uap13", "http://schemas.microsoft.com/appx/manifest/uap/windows10/13"),
     ("xmlns:rescap",
      "http://schemas.microsoft.com/appx/manifest/foundation/windows10/restrictedcapabilities"),
     ("IgnorableNamespaces", "uap13")]
    none
    [.elem "Identity"
       [("Name", app_spec.name),
        ("Version", app_spec.version),
        ("Publisher", app_spec.cert.publisher),
        ("ProcessorArchitecture", app_spec.arch)]
       none [],
     .elem "Properties" [] none
       [.elem "DisplayName" [] (some app_spec.displayed_name) [],
        .elem "PublisherDisplayName" [] (some app_spec.displayed_publisher) [],
        .elem "Description" [] (some app_spec.description) [],
        .elem "Logo" [] (some app_spec.logo.logo_sq_150x150) []],
     .elem "Resources" [] none
       [.elem "Resource" [("Language", "en-us")] none []],
     .elem "Dependencies" [] none
       [.elem "TargetDeviceFamily"
          [("Name", "Windows.Desktop"),
           ("MinVersion", app_spec.min_windows_version),
           ("MaxVersionTested", app_spec.max_windows_version_tested)]
          none []],
     .elem "Capabilities" [] none
       [.elem "rescap:Capability" [("Name", "runFullTrust")] none []],
     .elem "Applications" [] none
       [.elem "Application"
          [("Id", lastDotSegment app_spec.name),
           ("Executable", app_spec.entrypoint),
           ("uap10:RuntimeBehavior", "packagedClassicApp"),
           ("uap10:TrustLevel", "mediumIL")]
          none
          [.elem "uap:VisualElements"
             [("DisplayName", app_spec.displayed_name),
              ("Description", app_spec.description),
              ("Square150x150Logo", app_spec.logo.logo_sq_150x150),
              ("Square44x44Logo", app_spec.logo.logo_sq_44x44),
              ("BackgroundColor", app_spec.logo.bg_color)]
             none []]]]

/-! ## `gen_appx_installer` (lines 240-266) -/

/-- The `AppInstaller` document tree built by `gen_appx_installer`.
The source reads the global `parsed_args.app_version` at line 250; it is
passed here explicitly.  `str(bool).lower()` of lines 257-258 is the
literal `"true"`/`"false"`, and `str` of the integer update interval is
its decimal rendering. -/
def gen_appx_installer (app_version : String) (app_spec : MsixApplication)
    (installer_spec : MsixInstaller) : XmlNode :=
  .elem "AppInstaller"
    [("xmlns", "http://schemas.microsoft.com/appx/appinstaller/2018"),
     ("Version", installer_spec.version),
     ("Uri", installer_spec.installer_uri)]
    none
    ([.elem "MainPackage"
        [("Name", app_spec.name),
         ("Publisher", app_spec.cert.publisher),
         ("Version", app_version),
         ("Uri", installer_spec.appx_uri),
         ("ProcessorArchitecture", app_spec.arch)]
        none [],
      .elem "UpdateSettings" [] none
        ([.elem "OnLaunch"
            [("HoursBetweenUpdateChecks", toString installer_spec.hours_between_update_checks),
             ("ShowPrompt", if installer_spec.show_prompt then "true" else "false"),
             ("UpdateBlocksActivation",
              if installer_spec.update_blocks_activation then "true" else "false")]
            none []]
          ++ (if installer_spec.automatic_background_task then
                [.elem "AutomaticBackgroundTask" [] none []]
              else [])
          ++ (if installer_spec.force_update_from_any_version then
                [.elem "ForceUpdateFromAnyVersion" [] (some "true") []]
              else []))])

/-! ## Filesystem-facing environment and the module-level script
(lines 149-170 and 269-341) -/

/-- The command-line arguments plus the filesystem and certificate-store
facts the script consults.  `json` is the document loaded from
`--manifest` (line 60); `destDirOk` is `dest_dir.exists() and
dest_dir.is_dir()` (line 301); the logo flags are the existence checks of
`setup_app_logos`; `now` is the clock the store query compares validity
against. -/
structure Env where
  appVersion : String
  json : Json
  logoDirExists : Bool
  logoDirIsDir : Bool
  logo44Exists : Bool
  logo150Exists : Bool
  destDirOk : Bool
  certSubjectArg : Option String
  certPathArg : Option String
  noManifest : Bool
  genInstaller : Bool
  now : Int
  storeCerts : List StoreCert

/-- `setup_app_logos` (lines 149-170): asserts the logo directory exists
and is a directory, then for each of `logo_44x44.png` and
`logo_150x150.png` (in that order) asserts existence, copies it into
`msix_assets`, and records the package-relative path.  The path separator
is the platform's; we render it as `/`. -/
def setup_app_logos (env : Env) (bg_color : String) : Except String AppLogo :=
  if env.logoDirExists && env.logoDirIsDir then
    if env.logo44Exists then
      if env.logo150Exists then
        .ok { logo_sq_44x44 := "msix_assets/logo_44x44.png",
              logo_sq_150x150 := "msix_assets/logo_150x150.png",
              bg_color := bg_color }
      else .error "Expected Logo file not found: logo_150x150.png"
    else .error "Expected Logo file not found: logo_44x44.png"
  else .error "Logo directory not found"

/-- The module-level `MsixApplication(...)` construction (lines 272-286),
with `am` the already-looked-up `manifest["AppManifest"]` object.  Keyword
arguments are evaluated in source order; the first failing lookup (or the
certificate resolution / logo staging failure) aborts. -/
def buildApp (env : Env) (am : Json) : Except String MsixApplication :=
  match jGet am "Identity" with
  | .error e => .error e
  | .ok identity =>
  match jStr identity "Name" with
  | .error e => .error e
  | .ok name =>
  match jGet am "Identity" with
  | .error e => .error e
  | .ok identity2 =>
  match jStr identity2 "Arch" with
  | .error e => .error e
  | .ok arch =>
  match jGet am "Properties" with
  | .error e => .error e
  | .ok props =>
  match jStr props "DisplayName" with
  | .error e => .error e
  | .ok displayed_name =>
  match jGet am "Properties" with
  | .error e => .error e
  | .ok props2 =>
  match jStr props2 "Description" with
  | .error e => .error e
  | .ok description =>
  match jGet am "Properties" with
  | .error e => .error e
  | .ok props3 =>
  match jStr props3 "PublisherDisplayName" with
  | .error e => .error e
  | .ok displayed_publisher =>
  match jGet am "Application" with
  | .error e => .error e
  | .ok application =>
  match jStr application "EntryPoint" with
  | .error e => .error e
  | .ok entrypoint =>
  match get_cert_subject env.certSubjectArg env.now env.storeCerts with
  | .error e => .error e
  | .ok cert_subject =>
  match jGet am "VisualElements" with
  | .error e => .error e
  | .ok visual =>
  match jStr visual "BackgroundColor" with
  | .error e => .error e
  | .ok bg_color =>
  match setup_app_logos env bg_color with
  | .error e => .error e
  | .ok logo =>
  match jGet am "Dependencies" with
  | .error e => .error e
  | .ok deps =>
  match jStr deps "MinVersion" with
  | .error e => .error e
  | .ok min_windows_version =>
  match jGet am "Dependencies" with
  | .error e => .error e
  | .ok deps2 =>
  match jStr deps2 "MaxVersionTested" with
  | .error e => .error e
  | .ok max_windows_version_tested =>
    .ok { name := name, displayed_name := displayed_name,
          description := description, version := env.appVersion,
          cert := { publisher := cert_subject }, arch := arch,
          logo := logo, entrypoint := entrypoint,
          displayed_publisher := displayed_publisher,
          min_windows_version := min_windows_version,
          max_windows_version_tested := max_windows_version_tested }

/-- The module-level `MsixInstaller(...)` construction (lines 289-298),
with `im` the already-looked-up `manifest["AppInstaller"]` object. -/
def buildInstaller (im : Json) : Except String MsixInstaller :=
  match jStr im "Version" with
  | .error e => .error e
  | .ok version =>
  match jStr im "Uri" with
  | .error e => .error e
  | .ok installer_uri =>
  match jGet im "MainPackage" with
  | .error e => .error e
  | .ok main_package =>
  match jStr main_package "Uri" with
  | .error e => .error e
  | .ok appx_uri =>
  match jGet im "UpdateSettings" with
  | .error e => .error e
  | .ok us =>
  match jGet us "OnLaunch" with
  | .error e => .error e
  | .ok ol =>
  match jInt ol "HoursBetweenUpdateChecks" with
  | .error e => .error e
  | .ok hours_between_update_checks =>
  match jGet im "UpdateSettings" with
  | .error e => .error e
  | .ok us2 =>
  match jGet us2 "OnLaunch" with
  | .error e => .error e
  | .ok ol2 =>
  match jBool ol2 "ShowPrompt" with
  | .error e => .error e
  | .ok show_prompt =>
  match jGet im "UpdateSettings" with
  | .error e => .error e
  | .ok us3 =>
  match jGet us3 "OnLaunch" with
  | .error e => .error e
  | .ok ol3 =>
  match jBool ol3 "UpdateBlocksActivation" with
  | .error e => .error e
  | .ok update_blocks_activation =>
  match jGet im "UpdateSettings" with
  | .error e => .error e
  | .ok us4 =>
  match jBool us4 "AutomaticBackgroundTask" with
  | .error e => .error e
  | .ok automatic_background_task =>
  match jGet im "UpdateSettings" with
  | .error e => .error e
  | .ok us5 =>
  match jBool us5 "ForceUpdateFromAnyVersion" with
  | .error e => .error e
  | .ok force_update_from_any_version =>
    .ok { version := version, installer_uri := installer_uri,
          appx_uri := appx_uri,
          hours_between_update_checks := hours_between_update_checks,
          show_prompt := show_prompt,
          update_blocks_activation := update_blocks_activation,
          automatic_background_task := automatic_background_task,
          force_update_from_any_version := force_update_from_any_version }

/-- The padding block (lines 326-338), on the bytes already written to the
descriptor file: measure the size, assert it is strictly below the 4096
byte limit (aborting without appending anything otherwise; the f-string
assert message interpolates only `file_pad_limit`, i.e. `4096`), and
append one newline byte and `(file_pad_limit - 1) - file_size` space
bytes. -/
def padAppInstaller (content : List Nat) : Except String (List Nat) :=
  let file_size := content.length
  let file_pad_limit := 4096
  if file_size < file_pad_limit then
    .ok (content ++ ([10] ++ List.replicate ((file_pad_limit - 1) - file_size) 32))
  else
    .error "AppInstaller file size is larger than the 4096B limit"

/-! ### `PurePosixPath(urlparse(uri).path).name` (line 315) -/

/-- The path component of `urllib.parse.urlparse`: strip the fragment
(from the first `#`) and query (from the first `?`), drop a leading
well-formed `scheme:` (letters, digits, `+`, `-`, `.`, starting with a
letter) and, when the remainder starts with `//`, the network-location up
to the next `/`. -/
def urlPath (uri : String) : List Char :=
  let noFrag := (uri.toList.takeWhile (· ≠ '#')).takeWhile (· ≠ '?')
  let isSchemeChar := fun c : Char => c.isAlpha || c.isDigit || c = '+' || c = '-' || c = '.'
  let pre := noFrag.takeWhile (· ≠ ':')
  let afterScheme :=
    if pre.length < noFrag.length && pre ≠ [] &&
        (pre.headD ' ').isAlpha && pre.all isSchemeChar then
      noFrag.drop (pre.length + 1)
    else noFrag
  if afterScheme.take 2 = ['/', '/'] then
    (afterScheme.drop 2).dropWhile (· ≠ '/')
  else afterScheme

/-- `PurePosixPath(p).name`: the last path component after dropping empty
and `.` segments (the empty string for a root or empty path). -/
def posixName (p : List Char) : String :=
  String.mk (((pySplit '/' p).filter (fun seg => seg ≠ [] && seg ≠ ['.'])).getLastD [])

/-- Line 315: the descriptor is written to the file named by the last path
segment of its own hosting URI. -/
def installerFileName (uri : String) : String :=
  posixName (urlPath uri)

/-- The `AppInstaller.Uri` value of the loaded JSON document, when
present. -/
def installerUriOf (j : Json) : Option String :=
  (j.get? "AppInstaller").bind (fun im => (im.get? "Uri").bind Json.asStr)

/-- The module-level script body (lines 269-341), parameterized by the
`xml.etree.ElementTree` serializer `ser` (indentation plus UTF-8
declaration; external library code).  Returns the XML files written as
`(file name, bytes)` pairs in write order — the final on-disk contents,
the descriptor's reflecting the padding append — together with `none` on
success or `some message` when an assertion/lookup aborted the script
after exactly those writes.  The `msix_assets` logo copies are asset
writes, not XML writes, and are not listed. -/
def run (ser : XmlNode → List Nat) (env : Env) : List (String × List Nat) × Option String :=
  match env.json.get? "AppManifest" with
  | none => ([], some "KeyError: AppManifest")
  | some am =>
  match env.json.get? "AppInstaller" with
  | none => ([], some "KeyError: AppInstaller")
  | some im =>
  match buildApp env am with
  | .error e => ([], some e)
  | .ok app =>
  match buildInstaller im with
  | .error e => ([], some e)
  | .ok installer =>
  if env.destDirOk = false then ([], some "Destination directory does not exist")
  else
    let manifestWrites :=
      if env.noManifest then []
      else [("AppxManifest.xml", ser (gen_appx_manifest app))]
    if env.genInstaller then
      let content := ser (gen_appx_installer env.appVersion app installer)
      let fname := installerFileName installer.installer_uri
      match padAppInstaller content with
      | .ok padded => (manifestWrites ++ [(fname, padded)], none)
      | .error e => (manifestWrites ++ [(fname, content)], some e)
    else (manifestWrites, none)

/-! ## Helper notions used by the statements -/

/-- Substring test on character lists (Python `pat in msg`). -/
def containsSub (hay pat : List Char) : Bool :=
  match hay with
  | [] => decide (pat = [])
  | _ :: t => pat.isPrefixOf hay || containsSub t pat

/-! ## Helper lemmas -/

theorem pySplit_of_not_mem (sep : Char) (l : List Char) (h : sep ∉ l) :
    pySplit sep l = [l] := by
  induction l with
  | nil => rfl
  | cons a t ih =>
    simp only [List.mem_cons, not_or] at h
    obtain ⟨h1, h2⟩ := h
    simp only [pySplit]
    rw [if_neg (fun hh => h1 hh.symm), ih h2]

theorem mem_insertCert {x c : StoreCert} {l : List StoreCert} :
    x ∈ insertCert c l ↔ x = c ∨ x ∈ l := by
  induction l with
  | nil => simp [insertCert]
  | cons d ds ih =>
    by_cases hcd : c.notAfter ≤ d.notAfter
    · simp [insertCert, hcd]
    · simp only [insertCert, if_neg hcd, List.mem_cons, ih]
      tauto

theorem mem_sortByNotAfter {x : StoreCert} {l : List StoreCert} :
    x ∈ sortByNotAfter l ↔ x ∈ l := by
  induction l with
  | nil => simp [sortByNotAfter]
  | cons c cs ih => simp [sortByNotAfter, mem_insertCert, ih]

theorem pairwise_insertCert {c : StoreCert} {l : List StoreCert}
    (h : l.Pairwise (fun a b => a.notAfter ≤ b.notAfter)) :
    (insertCert c l).Pairwise (fun a b => a.notAfter ≤ b.notAfter) := by
  induction l with
  | nil => simp [insertCert]
  | cons d ds ih =>
    rcases List.pairwise_cons.mp h with ⟨hd, hds⟩
    by_cases hcd : c.notAfter ≤ d.notAfter
    · rw [insertCert, if_pos hcd]
      refine List.pairwise_cons.mpr ⟨?_, h⟩
      intro b hb
      rcases List.mem_cons.mp hb with rfl | hb
      · exact hcd
      · exact le_trans hcd (hd b hb)
    · rw [insertCert, if_neg hcd]
      refine List.pairwise_cons.mpr ⟨?_, ih hds⟩
      intro b hb
      rcases mem_insertCert.mp hb with rfl | hb
      · exact le_of_not_le hcd
      · exact hd b hb

theorem pairwise_sortByNotAfter (l : List StoreCert) :
    (sortByNotAfter l).Pairwise (fun a b => a.notAfter ≤ b.notAfter) := by
  induction l with
  | nil => simp [sortByNotAfter]
  | cons c cs ih => exact pairwise_insertCert ih

theorem mem_of_getLast?_eq {α : Type} {l : List α} {a : α}
    (h : l.getLast? = some a) : a ∈ l := by
  induction l with
  | nil => simp at h
  | cons b t ih =>
    cases t with
    | nil =>
      simp only [List.getLast?_singleton, Option.some.injEq] at h
      simp [h]
    | cons c t2 =>
      rw [List.getLast?_cons_cons] at h
      exact List.mem_cons_of_mem _ (ih h)

theorem getLast?_le_of_pairwise {l : List StoreCert} {m : StoreCert}
    (hp : l.Pairwise (fun a b => a.notAfter ≤ b.notAfter))
    (h : l.getLast? = some m) :
    ∀ x ∈ l, x.notAfter ≤ m.notAfter := by
  induction l with
  | nil => simp at h
  | cons a t ih =>
    rcases List.pairwise_cons.mp hp with ⟨ha, ht⟩
    cases t with
    | nil =>
      simp only [List.getLast?_singleton, Option.some.injEq] at h
      subst h
      intro x hx
      rcases List.mem_singleton.mp hx with rfl
      exact le_refl _
    | cons b t2 =>
      rw [List.getLast?_cons_cons] at h
      intro x hx
      rcases List.mem_cons.mp hx with rfl | hx
      · exact ha m (mem_of_getLast?_eq h)
      · exact ih ht h x hx

theorem jGet_eq_ok_iff {j : Json} {k : String} {v : Json} :
    jGet j k = .ok v ↔ j.get? k = some v := by
  unfold jGet
  cases j.get? k <;> simp

theorem jStr_eq_ok_iff {j : Json} {k : String} {s : String} :
    jStr j k = .ok s ↔ j.get? k = some (.str s) := by
  unfold jStr
  cases h : j.get? k with
  | none => simp
  | some v => cases v <;> simp [Json.asStr]

theorem jBool_eq_ok_iff {j : Json} {k : String} {b : Bool} :
    jBool j k = .ok b ↔ j.get? k = some (.bool b) := by
  unfold jBool
  cases h : j.get? k with
  | none => simp
  | some v => cases v <;> simp [Json.asBool]

theorem jInt_eq_ok_iff {j : Json} {k : String} {n : Int} :
    jInt j k = .ok n ↔ j.get? k = some (.num n) := by
  unfold jInt
  cases h : j.get? k with
  | none => simp
  | some v => cases v <;> simp [Json.asInt]

theorem setup_app_logos_eq_ok_iff {env : Env} {bg : String} {l : AppLogo} :
    setup_app_logos env bg = .ok l ↔
      env.logoDirExists = true ∧ env.logoDirIsDir = true ∧
      env.logo44Exists = true ∧ env.logo150Exists = true ∧
      l = { logo_sq_44x44 := "msix_assets/logo_44x44.png",
            logo_sq_150x150 := "msix_assets/logo_150x150.png",
            bg_color := bg } := by
  unfold setup_app_logos
  cases h1 : env.logoDirExists <;> cases h2 : env.logoDirIsDir <;>
    cases h3 : env.logo44Exists <;> cases h4 : env.logo150Exists <;>
    simp [eq_comm]

/-- Inversion of the `MsixApplication` construction: when it succeeds, the
certificate resolver returned exactly the publisher stored in the result,
and the logo staging checks all passed. -/
theorem buildApp_ok_inv {env : Env} {am : Json} {app : MsixApplication}
    (h : buildApp env am = .ok app) :
    get_cert_subject env.certSubjectArg env.now env.storeCerts = .ok app.cert.publisher ∧
    env.logoDirExists = true ∧ env.logoDirIsDir = true ∧
    env.logo44Exists = true ∧ env.logo150Exists = true := by
  unfold buildApp at h
  repeat' split at h
  any_goals exact Except.noConfusion h
  rcases Except.ok.inj h with rfl
  simp_all [setup_app_logos_eq_ok_iff]

/-- All keys the `MsixInstaller` construction (lines 289-298) looks up are
present in the given `AppInstaller` object. -/
def installerSubkeysPresent (im : Json) : Bool :=
  (im.get? "Version").isSome && (im.get? "Uri").isSome &&
  (match im.get? "MainPackage" with
   | some mp => (mp.get? "Uri").isSome
   | none => false) &&
  (match im.get? "UpdateSettings" with
   | some us =>
     (match us.get? "OnLaunch" with
      | some ol =>
        (ol.get? "HoursBetweenUpdateChecks").isSome &&
        (ol.get? "ShowPrompt").isSome &&
        (ol.get? "UpdateBlocksActivation").isSome
      | none => false) &&
     (us.get? "AutomaticBackgroundTask").isSome &&
     (us.get? "ForceUpdateFromAnyVersion").isSome
   | none => false)

/-- The loaded JSON document lacks the `AppInstaller` key or one of the
subkeys the installer-spec construction reads. -/
def installerKeysMissing (j : Json) : Bool :=
  match j.get? "AppInstaller" with
  | none => true
  | some im => !(installerSubkeysPresent im)

/-- Inversion of the `MsixInstaller` construction: success implies every
key it reads is present, and ties the stored hosting URI to the JSON
field. -/
theorem buildInstaller_ok_inv {im : Json} {i : MsixInstaller}
    (h : buildInstaller im = .ok i) :
    installerSubkeysPresent im = true ∧
    im.get? "Uri" = some (.str i.installer_uri) := by
  unfold buildInstaller at h
  repeat' split at h
  any_goals exact Except.noConfusion h
  rcases Except.ok.inj h with rfl
  simp_all [installerSubkeysPresent, jGet_eq_ok_iff, jStr_eq_ok_iff,
    jBool_eq_ok_iff, jInt_eq_ok_iff]

/-! ## Claims -/

/-- C1: for every installer-descriptor run whose pre-padding file size is
strictly below 4096 bytes, the padding step (lines 326-338) succeeds and
the resulting descriptor file is exactly 4096 bytes: the original
serialized XML unchanged as a prefix, then one newline byte (10), then
space bytes (32) filling the remainder. -/
theorem claim_C1 (content : List Nat) (h : content.length < 4096) :
    padAppInstaller content =
      .ok (content ++ ([10] ++ List.replicate (4095 - content.length) 32)) ∧
    (content ++ ([10] ++ List.replicate (4095 - content.length) 32)).length = 4096 := by
  constructor
  · simp only [padAppInstaller]
    rw [if_pos h]
  · simp only [List.length_append, List.length_replicate, List.length_cons,
      List.length_nil]
    omega

/-- Witness for C1 at a one-byte descriptor. -/
theorem claim_C1_witness :
    padAppInstaller [60] =
      .ok ([60] ++ ([10] ++ List.replicate (4095 - [60].length) 32)) ∧
    ([60] ++ ([10] ++ List.replicate (4095 - [60].length) 32)).length = 4096 :=
  claim_C1 [60] (by decide)

/-- C2 (amended): when the pre-padding descriptor size is at least 4096
bytes, the padding step aborts fatally — reporting the limit, though not
the measured size — and appends nothing, so no padded or truncated
descriptor is written. -/
theorem claim_C2 (content : List Nat) (h : 4096 ≤ content.length) :
    padAppInstaller content =
      .error "AppInstaller file size is larger than the 4096B limit" := by
  simp only [padAppInstaller]
  rw [if_neg (by omega)]

/-- Witness for C2 at a 4096-byte descriptor. -/
theorem claim_C2_witness :
    padAppInstaller (List.replicate 4096 0) =
      .error "AppInstaller file size is larger than the 4096B limit" :=
  claim_C2 (List.replicate 4096 0) (by rw [List.length_replicate])

/-- Counterexample to C2 as stated: at a 5000-byte descriptor the abort
message is the fixed string naming only the 4096-byte limit; the measured
size, 5000, does not occur in it, so the failure is not "reported with the
measured size and the limit". -/
theorem claim_C2_counterexample :
    padAppInstaller (List.replicate 5000 0) =
      .error "AppInstaller file size is larger than the 4096B limit" ∧
    containsSub "AppInstaller file size is larger than the 4096B limit".toList
      "5000".toList = false ∧
    containsSub "AppInstaller file size is larger than the 4096B limit".toList
      "4096".toList = true := by
  refine ⟨?_, by decide, by decide⟩
  simp only [padAppInstaller]
  rw [if_neg (by simp only [List.length_replicate]; omega)]

/-- C5: the `Application` element's `Id` attribute of the generated
package manifest (line 220: `app_spec.name.split(".")[-1]`) is the final
dot-separated segment of the app name; for a name with no dots that
segment is the whole name. -/
theorem claim_C5 (a : MsixApplication) (s : String) (hs : '.' ∉ s.toList) :
    (((gen_appx_manifest a).findChild "Applications").bind
        (fun apps => apps.findChild "Application")).bind
      (fun ap => ap.getAttr "Id") = some (lastDotSegment a.name) ∧
    lastDotSegment s = s := by
  constructor
  · rfl
  · unfold lastDotSegment
    rw [pySplit_of_not_mem _ _ hs]
    rfl

/-- Witness for C5: a concrete application spec, and the dot-free name
`"Tool"`. -/
theorem claim_C5_witness :
    (((gen_appx_manifest
          { name := "Contoso.App.Tool", displayed_name := "Tool",
            description := "A tool", version := "1.0.0.0",
            cert := { publisher := "CN=Contoso Corp" }, arch := "x64",
            logo := { logo_sq_44x44 := "msix_assets/logo_44x44.png",
                      logo_sq_150x150 := "msix_assets/logo_150x150.png",
                      bg_color := "transparent" },
            entrypoint := "tool.exe", displayed_publisher := "Contoso",
            min_windows_version := "10.0.17763.0",
            max_windows_version_tested := "10.0.22000.1" }).findChild
          "Applications").bind
        (fun apps => apps.findChild "Application")).bind
      (fun ap => ap.getAttr "Id") = some (lastDotSegment "Contoso.App.Tool") ∧
    lastDotSegment "Tool" = "Tool" :=
  claim_C5 _ "Tool" (by decide)

/-- C8: in the generated installer descriptor, the `UpdateSettings`
element contains an (empty) `AutomaticBackgroundTask` child exactly when
the installer spec's flag is set (lines 260-261), and no such child
otherwise. -/
theorem claim_C8 (app_version : String) (a : MsixApplication) (i : MsixInstaller) :
    ((gen_appx_installer app_version a i).findChild "UpdateSettings").map
        (fun us => us.childrenWithTag "AutomaticBackgroundTask") =
      some (if i.automatic_background_task then
              [XmlNode.elem "AutomaticBackgroundTask" [] none []]
            else []) := by
  cases habt : i.automatic_background_task <;>
    cases hf : i.force_update_from_any_version <;>
    simp [gen_appx_installer, XmlNode.findChild, XmlNode.children,
      XmlNode.childrenWithTag, XmlNode.tag, habt, hf]

/-- C3: with no explicit `--cert-subject`, whenever the store query's
pipeline selects a certificate, that certificate's validity window
(strictly) contains the current time, its expiration is no earlier than
that of any other currently-valid code-signing certificate in the store,
and `get_cert_subject` returns exactly its subject. -/
theorem claim_C3 (now : Int) (certs : List StoreCert) (c d : StoreCert)
    (hsel : selectStoreCert now certs = some c)
    (hd : d ∈ certs) (hd1 : d.notBefore < now) (hd2 : now < d.notAfter) :
    c ∈ certs ∧ c.notBefore < now ∧ now < c.notAfter ∧
    d.notAfter ≤ c.notAfter ∧
    get_cert_subject none now certs = .ok c.subject := by
  have hsel' : (sortByNotAfter (filter_valid_certs now certs)).getLast? = some c := hsel
  have hcSort : c ∈ sortByNotAfter (filter_valid_certs now certs) :=
    mem_of_getLast?_eq hsel'
  have hcFilt : c ∈ filter_valid_certs now certs := mem_sortByNotAfter.mp hcSort
  have hc := List.mem_filter.mp hcFilt
  have hcValid : c.notBefore < now ∧ c.notAfter > now := by
    have := hc.2
    simp only [Bool.and_eq_true, decide_eq_true_eq] at this
    exact this
  have hdFilt : d ∈ filter_valid_certs now certs := by
    refine List.mem_filter.mpr ⟨hd, ?_⟩
    simp only [Bool.and_eq_true, decide_eq_true_eq]
    exact ⟨hd1, hd2⟩
  have hdSort : d ∈ sortByNotAfter (filter_valid_certs now certs) :=
    mem_sortByNotAfter.mpr hdFilt
  have hmax := getLast?_le_of_pairwise
    (pairwise_sortByNotAfter (filter_valid_certs now certs)) hsel' d hdSort
  refine ⟨hc.1, hcValid.1, hcValid.2, hmax, ?_⟩
  simp [get_cert_subject, pwshCertQuery, hsel, parseCertOutput]

/-- Witness for C3: a three-certificate store at time 100 — one valid
until 200, one valid until 300, one already expired — where the pipeline
selects the certificate expiring at 300. -/
theorem claim_C3_witness :
    (⟨"B", "T2", "CN=B", 10, 300⟩ : StoreCert) ∈
      [(⟨"A", "T1", "CN=A", 0, 200⟩ : StoreCert),
       ⟨"B", "T2", "CN=B", 10, 300⟩, ⟨"C", "T3", "CN=C", 0, 50⟩] ∧
    (10 : Int) < 100 ∧ (100 : Int) < 300 ∧ (200 : Int) ≤ 300 ∧
    get_cert_subject none 100
      [⟨"A", "T1", "CN=A", 0, 200⟩, ⟨"B", "T2", "CN=B", 10, 300⟩,
       ⟨"C", "T3", "CN=C", 0, 50⟩] = .ok "CN=B" :=
  claim_C3 100
    [⟨"A", "T1", "CN=A", 0, 200⟩, ⟨"B", "T2", "CN=B", 10, 300⟩,
     ⟨"C", "T3", "CN=C", 0, 50⟩]
    ⟨"B", "T2", "CN=B", 10, 300⟩ ⟨"A", "T1", "CN=A", 0, 200⟩
    (by decide) (by decide) (by decide) (by decide)

/-- C4: whenever the application spec is successfully constructed, the
`Identity` element's `Publisher` attribute of the generated package
manifest is, character for character, the subject string the certificate
resolver returned (the explicit `--cert-subject` value when truthy,
otherwise the store-selected subject — see `get_cert_subject`). -/
theorem claim_C4 (env : Env) (am : Json) (app : MsixApplication)
    (h : buildApp env am = .ok app) :
    get_cert_subject env.certSubjectArg env.now env.storeCerts =
      .ok app.cert.publisher ∧
    ((gen_appx_manifest app).findChild "Identity").bind
      (fun idElem => idElem.getAttr "Publisher") = some app.cert.publisher :=
  ⟨(buildApp_ok_inv h).1, rfl⟩

/-- A complete, well-formed manifest JSON document used by the run-level
witnesses. -/
def jsonFull : Json := Json.obj
  [("AppManifest", Json.obj
     [("Identity", Json.obj
        [("Name", .str "Contoso.App.Tool"), ("Arch", .str "x64")]),
      ("Properties", Json.obj
        [("DisplayName", .str "Tool"), ("Description", .str "A tool"),
         ("PublisherDisplayName", .str "Contoso")]),
      ("Application", Json.obj [("EntryPoint", .str "tool.exe")]),
      ("VisualElements", Json.obj [("BackgroundColor", .str "transparent")]),
      ("Dependencies", Json.obj
        [("MinVersion", .str "10.0.17763.0"),
         ("MaxVersionTested", .str "10.0.22000.1")])]),
   ("AppInstaller", Json.obj
     [("Version", .str "1.0.0.0"),
      ("Uri", .str "https://example.com/files/Tool.appinstaller"),
      ("MainPackage", Json.obj
        [("Uri", .str "https://example.com/files/Tool.msix")]),
      ("UpdateSettings", Json.obj
        [("OnLaunch", Json.obj
           [("HoursBetweenUpdateChecks", .num 0), ("ShowPrompt", .bool true),
            ("UpdateBlocksActivation", .bool true)]),
         ("AutomaticBackgroundTask", .bool true),
         ("ForceUpdateFromAnyVersion", .bool false)])])]

/-- A fully healthy environment with an explicit certificate subject. -/
def envFull : Env where
  appVersion := "1.0.0.0"
  json := jsonFull
  logoDirExists := true
  logoDirIsDir := true
  logo44Exists := true
  logo150Exists := true
  destDirOk := true
  certSubjectArg := some "CN=Contoso Corp"
  certPathArg := none
  noManifest := false
  genInstaller := true
  now := 0
  storeCerts := []

/-- The application spec `envFull` constructs. -/
def appFull : MsixApplication where
  name := "Contoso.App.Tool"
  displayed_name := "Tool"
  description := "A tool"
  version := "1.0.0.0"
  cert := { publisher := "CN=Contoso Corp" }
  arch := "x64"
  logo := { logo_sq_44x44 := "msix_assets/logo_44x44.png",
            logo_sq_150x150 := "msix_assets/logo_150x150.png",
            bg_color := "transparent" }
  entrypoint := "tool.exe"
  displayed_publisher := "Contoso"
  min_windows_version := "10.0.17763.0"
  max_windows_version_tested := "10.0.22000.1"

/-- Witness for C4 on the concrete environment `envFull`. -/
theorem claim_C4_witness :
    get_cert_subject envFull.certSubjectArg envFull.now envFull.storeCerts =
      .ok appFull.cert.publisher ∧
    ((gen_appx_manifest appFull).findChild "Identity").bind
      (fun idElem => idElem.getAttr "Publisher") =
      some appFull.cert.publisher :=
  claim_C4 envFull ((jsonFull.get? "AppManifest").getD .null) appFull rfl

/-- C6: when the logo source directory is missing (or not a directory), or
either expected logo file is absent, the script aborts during application
construction — before writing any XML file, so neither `AppxManifest.xml`
nor an installer descriptor is created. -/
theorem claim_C6 (ser : XmlNode → List Nat) (env : Env)
    (h : env.logoDirExists = false ∨ env.logoDirIsDir = false ∨
      env.logo44Exists = false ∨ env.logo150Exists = false) :
    (run ser env).1 = [] ∧ (run ser env).2 ≠ none := by
  cases ham : env.json.get? "AppManifest" with
  | none => simp [run, ham]
  | some am =>
    cases him : env.json.get? "AppInstaller" with
    | none => simp [run, ham, him]
    | some im =>
      cases hba : buildApp env am with
      | error e => simp [run, ham, him, hba]
      | ok app =>
        exfalso
        rcases buildApp_ok_inv hba with ⟨-, h1, h2, h3, h4⟩
        rcases h with h | h | h | h <;> simp_all

/-- The healthy environment with the 150×150 logo file removed. -/
def envNoLogo : Env := { envFull with logo150Exists := false }

/-- Witness for C6: with `logo_150x150.png` absent, the run writes nothing
and aborts. -/
theorem claim_C6_witness :
    (run (fun _ => []) envNoLogo).1 = [] ∧
    (run (fun _ => []) envNoLogo).2 ≠ none :=
  claim_C6 (fun _ => []) envNoLogo (Or.inr (Or.inr (Or.inr rfl)))

/-- C7: the store query's captured output is accepted exactly when it has
three lines — the third being returned as the subject — and any other
shape makes `parseCertOutput` (the `assert` of line 104) fail, which
aborts the whole run before any XML write whenever the resolver fails. -/
theorem claim_C7 (lines : List String) (ser : XmlNode → List Nat) (env : Env)
    (e : String)
    (hcert : get_cert_subject env.certSubjectArg env.now env.storeCerts = .error e) :
    (parseCertOutput lines =
      if lines.length = 3 then .ok (lines.getD 2 "")
      else .error ("Unexpected output from Powershell: " ++
        String.intercalate "\n" lines)) ∧
    (run ser env).1 = [] ∧ (run ser env).2 ≠ none := by
  constructor
  · by_cases h3 : lines.length = 3
    · rw [if_pos h3]
      rcases lines with _ | ⟨a, _ | ⟨b, _ | ⟨c, _ | ⟨d, t⟩⟩⟩⟩
      · simp at h3
      · simp at h3
      · simp at h3
      · rfl
      · simp only [List.length_cons] at h3
        omega
    · rw [if_neg h3]
      rcases lines with _ | ⟨a, _ | ⟨b, _ | ⟨c, _ | ⟨d, t⟩⟩⟩⟩
      · rfl
      · rfl
      · rfl
      · exact absurd rfl h3
      · rfl
  · cases ham : env.json.get? "AppManifest" with
    | none => simp [run, ham]
    | some am =>
      cases him : env.json.get? "AppInstaller" with
      | none => simp [run, ham, him]
      | some im =>
        cases hba : buildApp env am with
        | error e2 => simp [run, ham, him, hba]
        | ok app =>
          exfalso
          have := (buildApp_ok_inv hba).1
          rw [hcert] at this
          exact Except.noConfusion this

/-- The healthy environment with no explicit subject and an empty
certificate store, so the query yields zero output lines. -/
def envNoCert : Env := { envFull with certSubjectArg := none }

/-- Witness for C7: a well-shaped three-line output parses to its third
line, and the zero-line output of `envNoCert`'s empty store aborts the
run with no writes. -/
theorem claim_C7_witness :
    (parseCertOutput ["FN", "TP", "CN=Store"] =
      if (["FN", "TP", "CN=Store"] : List String).length = 3 then
        .ok ((["FN", "TP", "CN=Store"] : List String).getD 2 "")
      else .error ("Unexpected output from Powershell: " ++
        String.intercalate "\n" ["FN", "TP", "CN=Store"])) ∧
    (run (fun _ => []) envNoCert).1 = [] ∧
    (run (fun _ => []) envNoCert).2 ≠ none :=
  claim_C7 ["FN", "TP", "CN=Store"] (fun _ => []) envNoCert
    ("Unexpected output from Powershell: " ++
      String.intercalate "\n" ([] : List String)) rfl

/-- C10: the installer spec is constructed on every invocation — also with
`--gen-installer` absent — so a loaded JSON lacking the `AppInstaller` key
or any subkey that construction reads makes the script abort before
emitting any document. -/
theorem claim_C10 (ser : XmlNode → List Nat) (env : Env)
    (h : installerKeysMissing env.json = true) :
    (run ser env).1 = [] ∧ (run ser env).2 ≠ none := by
  cases ham : env.json.get? "AppManifest" with
  | none => simp [run, ham]
  | some am =>
    cases him : env.json.get? "AppInstaller" with
    | none => simp [run, ham, him]
    | some im =>
      have hmiss : installerSubkeysPresent im = false := by
        unfold installerKeysMissing at h
        rw [him] at h
        simpa using h
      cases hba : buildApp env am with
      | error e => simp [run, ham, him, hba]
      | ok app =>
        cases hbi : buildInstaller im with
        | error e => simp [run, ham, him, hba, hbi]
        | ok inst =>
          have := (buildInstaller_ok_inv hbi).1
          rw [hmiss] at this
          exact absurd this (by simp)

/-- The healthy environment with the whole `AppInstaller` section removed
from the JSON and `--gen-installer` not passed. -/
def envNoInstallerKey : Env :=
  { envFull with
    json := Json.obj [("AppManifest", (jsonFull.get? "AppManifest").getD .null)],
    genInstaller := false }

/-- Witness for C10: without the `AppInstaller` key the run aborts with no
writes even though `--gen-installer` is absent. -/
theorem claim_C10_witness :
    (run (fun _ => []) envNoInstallerKey).1 = [] ∧
    (run (fun _ => []) envNoInstallerKey).2 ≠ none :=
  claim_C10 (fun _ => []) envNoInstallerKey rfl

/-- C9 (amended): with `--no-manifest`, the manifest-emit block (lines
303-308) is skipped, so the only file a run can write is the
`--gen-installer` descriptor, whose name is the last path segment of the
`AppInstaller.Uri` value; in particular no write to `AppxManifest.xml`
occurs unless that URI's own filename is `AppxManifest.xml`. -/
theorem claim_C9 (ser : XmlNode → List Nat) (env : Env) (w : String × List Nat)
    (hnm : env.noManifest = true) (hw : w ∈ (run ser env).1) :
    env.genInstaller = true ∧ (installerUriOf env.json).isSome = true ∧
    w.1 = installerFileName ((installerUriOf env.json).getD "") := by
  cases ham : env.json.get? "AppManifest" with
  | none => simp [run, ham] at hw
  | some am =>
  cases him : env.json.get? "AppInstaller" with
  | none => simp [run, ham, him] at hw
  | some im =>
  cases hba : buildApp env am with
  | error e => simp [run, ham, him, hba] at hw
  | ok app =>
  cases hbi : buildInstaller im with
  | error e => simp [run, ham, him, hba, hbi] at hw
  | ok inst =>
  cases hdd : env.destDirOk with
  | false => simp [run, ham, him, hba, hbi, hdd] at hw
  | true =>
    have huriOf : installerUriOf env.json = some inst.installer_uri := by
      simp [installerUriOf, him, (buildInstaller_ok_inv hbi).2, Json.asStr]
    cases hgi : env.genInstaller with
    | false => simp [run, ham, him, hba, hbi, hdd, hgi, hnm] at hw
    | true =>
      refine ⟨rfl, by simp [huriOf], ?_⟩
      have hw1 : w.1 = installerFileName inst.installer_uri := by
        cases hp : padAppInstaller (ser (gen_appx_installer env.appVersion app inst)) with
        | ok padded =>
          simp [run, ham, him, hba, hbi, hdd, hgi, hnm, hp] at hw
          simp [hw]
        | error e =>
          simp [run, ham, him, hba, hbi, hdd, hgi, hnm, hp] at hw
          simp [hw]
      rw [hw1, huriOf]
      rfl

/-- The healthy environment re-run with `--no-manifest`. -/
def envNoManifest : Env := { envFull with noManifest := true }

/-- Witness for C9 (amended): the single write of a `--no-manifest`
`--gen-installer` run is the descriptor named from the hosting URI. -/
theorem claim_C9_witness :
    envNoManifest.genInstaller = true ∧
    (installerUriOf envNoManifest.json).isSome = true ∧
    ("Tool.appinstaller", [60] ++ ([10] ++ List.replicate 4094 32)).1 =
      installerFileName ((installerUriOf envNoManifest.json).getD "") :=
  claim_C9 (fun _ => [60]) envNoManifest
    ("Tool.appinstaller", [60] ++ ([10] ++ List.replicate 4094 32))
    rfl
    (by
      rw [show (run (fun _ => [60]) envNoManifest).1 =
        [("Tool.appinstaller", [60] ++ ([10] ++ List.replicate 4094 32))] from rfl]
      exact List.mem_singleton.mpr rfl)

/-- The same document as `jsonFull` except that the descriptor's hosting
URI ends in `/AppxManifest.xml`. -/
def jsonCollide : Json := Json.obj
  [("AppManifest", Json.obj
     [("Identity", Json.obj
        [("Name", .str "Contoso.App.Tool"), ("Arch", .str "x64")]),
      ("Properties", Json.obj
        [("DisplayName", .str "Tool"), ("Description", .str "A tool"),
         ("PublisherDisplayName", .str "Contoso")]),
      ("Application", Json.obj [("EntryPoint", .str "tool.exe")]),
      ("VisualElements", Json.obj [("BackgroundColor", .str "transparent")]),
      ("Dependencies", Json.obj
        [("MinVersion", .str "10.0.17763.0"),
         ("MaxVersionTested", .str "10.0.22000.1")])]),
   ("AppInstaller", Json.obj
     [("Version", .str "1.0.0.0"),
      ("Uri", .str "https://example.com/files/AppxManifest.xml"),
      ("MainPackage", Json.obj
        [("Uri", .str "https://example.com/files/Tool.msix")]),
      ("UpdateSettings", Json.obj
        [("OnLaunch", Json.obj
           [("HoursBetweenUpdateChecks", .num 0), ("ShowPrompt", .bool true),
            ("UpdateBlocksActivation", .bool true)]),
         ("AutomaticBackgroundTask", .bool true),
         ("ForceUpdateFromAnyVersion", .bool false)])])]

/-- A `--no-manifest` run whose descriptor URI's last path segment is
itself `AppxManifest.xml`. -/
def envCollide : Env := { envFull with noManifest := true, json := jsonCollide }

/-- Counterexample to C9 as stated: in the `--no-manifest` run
`envCollide` the script does write a file named `AppxManifest.xml` into
the destination directory — the installer descriptor, whose hosting URI
ends in `/AppxManifest.xml` (line 315 first unlinks, then overwrites, any
existing file of that name).  So "no write to AppxManifest.xml occurs" is
false for this run. -/
theorem claim_C9_counterexample :
    envCollide.noManifest = true ∧
    (run (fun _ => [60]) envCollide).1.map Prod.fst = ["AppxManifest.xml"] :=
  ⟨rfl, rfl⟩
